import Mathlib

/-!
Shallow embedding of the `@lnbot/l402` TypeScript package (L402 HTTP payment
protocol client and Express paywall middleware), together with proofs of the
spec claims.

Modelling conventions:
* JS strings are modelled as Lean `String`; index-based JS string operations
  (`slice`, `lastIndexOf`, `startsWith`, regex scans) are modelled on the
  character list `String.toList`.
* JS numbers (satoshi amounts, millisecond timestamps) are modelled as `Int`.
* `Date.now()` is modelled as an explicit `now : Int` parameter; within one
  call of an operation the clock is treated as constant.
* Thrown exceptions are modelled with `Except` / explicit error results; the
  three error classes of `src/errors.ts` become the three constructors of
  `L402Err` (in TS, `L402BudgetExceededError` and `L402PaymentFailedError`
  both extend `L402Error`; the constructor name is the distinguishable kind).
* The effectful collaborators (`globalThis.fetch`, `ln.l402.pay`) are
  modelled as an oracle: `resp k` is the response to the k-th HTTP request
  issued during one `l402Fetch` call, and `pay` the result of the (at most
  one) payer invocation.  The complete list of external actions performed is
  returned as an event trace.
-/

/-- Result object of `parseAuthorization`: `{ macaroon, preimage }`. -/
structure AuthPair where
  macaroon : String
  preimage : String
deriving DecidableEq, Repr

/-- Result object of `parseChallenge`: `{ macaroon, invoice }`. -/
structure ChallengePair where
  macaroon : String
  invoice : String
deriving DecidableEq, Repr

/-- Index of the last occurrence of `c` in the list (JS `lastIndexOf`). -/
def lastIdxOf (c : Char) : List Char → Option Nat
  | [] => none
  | x :: xs =>
    match lastIdxOf c xs with
    | some i => some (i + 1)
    | none => if x = c then some 0 else none

/-- From `src/server/headers.ts` `parseAuthorization`: requires the literal
`"L402 "` prefix, drops it, and splits the remainder at the LAST colon. -/
def parseAuthorization (header : String) : Option AuthPair :=
  if "L402 ".toList.isPrefixOf header.toList then
    let token := header.toList.drop 5
    match lastIdxOf ':' token with
    | none => none
    | some i => some ⟨String.mk (token.take i), String.mk (token.drop (i + 1))⟩
  else none

/-- From `src/server/headers.ts` `formatAuthorization`. -/
def formatAuthorization (macaroon preimage : String) : String :=
  "L402 " ++ macaroon ++ ":" ++ preimage

/-- One attempt of the JS regex `key("([^"]+)"` at the head of `s`: the
literal `key` (which ends in the opening quote), then a non-empty run of
non-quote characters, then a closing quote.  Returns the capture. -/
def matchAttrAt (key s : List Char) : Option (List Char) :=
  if key.isPrefixOf s then
    let rest := s.drop key.length
    let cap := rest.takeWhile (fun c => c != '"')
    if cap ≠ [] ∧ (rest.drop cap.length).head? = some '"' then some cap else none
  else none

/-- Leftmost match of the quoted-attribute pattern (JS `String.match` with a
non-global regex picks the leftmost position where the pattern matches). -/
def scanAttr (key : List Char) : List Char → Option (List Char)
  | [] => matchAttrAt key []
  | c :: rest =>
    match matchAttrAt key (c :: rest) with
    | some cap => some cap
    | none => scanAttr key rest

/-- The literal part of the regex `/macaroon="([^"]+)"/`. -/
def macaroonKey : List Char := "macaroon=\"".toList

/-- The literal part of the regex `/invoice="([^"]+)"/`. -/
def invoiceKey : List Char := "invoice=\"".toList

/-- From `src/server/headers.ts` `parseChallenge`: requires the `"L402 "`
prefix, then extracts the `macaroon="..."` and `invoice="..."` attributes by
regex match over the whole header. -/
def parseChallenge (header : String) : Option ChallengePair :=
  if "L402 ".toList.isPrefixOf header.toList then
    match scanAttr macaroonKey header.toList, scanAttr invoiceKey header.toList with
    | some mc, some ic => some ⟨String.mk mc, String.mk ic⟩
    | _, _ => none
  else none

/-- From `src/server/headers.ts` `formatChallenge`. -/
def formatChallenge (macaroon invoice : String) : String :=
  "L402 macaroon=\"" ++ macaroon ++ "\", invoice=\"" ++ invoice ++ "\""

/-- The three error classes of `src/errors.ts`, carrying their message. -/
inductive L402Err where
  | l402Error (msg : String)
  | budgetExceeded (msg : String)
  | paymentFailed (msg : String)
deriving DecidableEq, Repr

/-- A cached L402 credential (`L402Token` in `src/types.ts`). -/
structure L402Token where
  macaroon : String
  preimage : String
  authorization : String
  paidAt : Int
  expiresAt : Option Int
deriving DecidableEq, Repr

/-- The parsed JSON body of a 402 response, as far as the client reads it
(`body?.price`, `body?.expiresAt`). -/
structure JsonBody where
  price : Option Int
  expiresAt : Option Int
deriving DecidableEq, Repr

/-- An HTTP response, as far as the client inspects it: status, the
`www-authenticate` header, and the parsed JSON body (`none` models both a
missing body and a body that fails to parse, i.e. `res.json().catch(null)`). -/
structure HttpResponse where
  status : Nat
  wwwAuthenticate : Option String
  body : Option JsonBody
deriving DecidableEq, Repr

/-- Result of `ln.l402.pay` as far as the client reads it. -/
structure PayResult where
  authorization : Option String
  preimage : Option String
  amount : Option Int
  status : String
deriving DecidableEq, Repr

/-- The `PERIOD_MS` record of `src/client/budget.ts`. -/
def PERIOD_MS (s : String) : Option Int :=
  if s = "hour" then some 3600000
  else if s = "day" then some 86400000
  else if s = "week" then some 604800000
  else if s = "month" then some 2592000000
  else none

/-- Client options (`L402ClientOptions` in `src/types.ts`).  The built-in
store strategies `"memory"` and `"none"` are modelled by the `storeNone`
flag; `norm` abstracts `normalizeUrl` of `src/client/store.ts`, whose body
delegates to the host `URL` parser. -/
structure Config where
  maxPrice : Option Int
  budgetSats : Option Int
  budgetPeriod : Option String
  storeNone : Bool
  norm : String → String

/-- The `Budget` class state of `src/client/budget.ts`. -/
structure Budget where
  spent : Int
  periodStart : Int
  totalSats : Option Int
  periodMs : Option Int
deriving DecidableEq, Repr

/-- The `Budget` constructor (`periodStart = Date.now()` at construction). -/
def Budget.new (options : Config) (now : Int) : Budget :=
  { spent := 0, periodStart := now, totalSats := options.budgetSats,
    periodMs := options.budgetPeriod.bind PERIOD_MS }

/-- `Budget.maybeReset`: the `this.periodMs &&` truthiness guard also skips a
zero period, as in JS. -/
def Budget.maybeReset (b : Budget) (now : Int) : Budget :=
  match b.periodMs with
  | some p => if p ≠ 0 ∧ now - b.periodStart ≥ p then
      { b with spent := 0, periodStart := now }
    else b
  | none => b

/-- `Budget.check`: returns the budget state as left by the call (the lazy
reset inside `check` is a real mutation of the instance) together with the
thrown error, if any. -/
def Budget.check (b : Budget) (price now : Int) : Budget × Option L402Err :=
  match b.totalSats with
  | none => (b, none)
  | some total =>
    let b1 := b.maybeReset now
    if b1.spent + price > total then
      (b1, some (.budgetExceeded ("Payment of " ++ toString price ++
        " sats would exceed budget (" ++ toString b1.spent ++ "/" ++
        toString total ++ " sats spent)")))
    else (b1, none)

/-- `Budget.record`. -/
def Budget.record (b : Budget) (price now : Int) : Budget :=
  let b1 := b.maybeReset now
  { b1 with spent := b1.spent + price }

/-- Lookup in the JS `Map` backing `MemoryStore`, as an association list. -/
def getKV : List (String × L402Token) → String → Option L402Token
  | [], _ => none
  | (k, v) :: rest, key => if k = key then some v else getKV rest key

/-- `Map.set`: replaces an existing binding, else appends. -/
def setKV : List (String × L402Token) → String → L402Token → List (String × L402Token)
  | [], key, v => [(key, v)]
  | (k, w) :: rest, key, v =>
    if k = key then (key, v) :: rest else (k, w) :: setKV rest key v

/-- `Map.delete`. -/
def delKV : List (String × L402Token) → String → List (String × L402Token)
  | [], _ => []
  | (k, w) :: rest, key => if k = key then rest else (k, w) :: delKV rest key

/-- `store.get(url)`: `NoStore` always misses, `MemoryStore` looks up the
normalized URL. -/
def storeGet (cfg : Config) (store : List (String × L402Token)) (url : String) :
    Option L402Token :=
  if cfg.storeNone then none else getKV store (cfg.norm url)

/-- `store.set(url, token)`. -/
def storeSet (cfg : Config) (store : List (String × L402Token)) (url : String)
    (tok : L402Token) : List (String × L402Token) :=
  if cfg.storeNone then store else setKV store (cfg.norm url) tok

/-- `store.delete(url)`. -/
def storeDel (cfg : Config) (store : List (String × L402Token)) (url : String) :
    List (String × L402Token) :=
  if cfg.storeNone then store else delKV store (cfg.norm url)

/-- External actions performed during one `l402Fetch` call, in order:
HTTP requests (with the `Authorization` header value set by the client, if
any, and the response received), payer invocations, and store writes. -/
inductive Event where
  | req (auth : Option String) (res : HttpResponse)
  | payerCall (wwwAuthenticate : String)
  | storeDelete (url : String)
  | storeSet (url : String) (tok : L402Token)
deriving DecidableEq, Repr

/-- Oracle for the effectful collaborators of one `l402Fetch` call:
`resp k` is the response of the k-th `globalThis.fetch` call, `pay` the
result of the payer (invoked at most once), `now` the clock. -/
structure NetOracle where
  resp : Nat → HttpResponse
  pay : PayResult
  now : Int

/-- The mutable state owned by one client instance: the `MemoryStore`
entries and the `Budget` instance. -/
structure ClientState where
  store : List (String × L402Token)
  budget : Budget
deriving DecidableEq, Repr

/-- The `isExpired` test of `l402Fetch` step 1:
`cached.expiresAt && cached.expiresAt.getTime() <= Date.now()`. -/
def tokenExpired (tok : L402Token) (now : Int) : Bool :=
  match tok.expiresAt with
  | some e => e ≤ now
  | none => false

/-- The derived `const maxPrice = options.maxPrice ?? 1000` of `client`. -/
def effMaxPrice (options : Config) : Int := (options.maxPrice).getD 1000

/-- The price hint `body?.price ?? 0` read from a 402 body. -/
def priceOf (body : Option JsonBody) : Int :=
  match body with
  | some b => b.price.getD 0
  | none => 0

/-- The cached expiry `body?.expiresAt ? new Date(body.expiresAt) : undefined`
(note the JS truthiness: a `0` timestamp counts as absent). -/
def bodyExpiresAt (body : Option JsonBody) : Option Int :=
  match body with
  | some b =>
    match b.expiresAt with
    | some e => if e = 0 then none else some e
    | none => none
  | none => none

/-- Step 1 of `l402Fetch` (the token-cache phase).  Returns
`(some res, _, st, ev)` when the cached credential was accepted (early
return), else `(none, k, st, ev)` where `k` is the index of the next
`globalThis.fetch` call, `st` the state and `ev` the events so far. -/
def step1 (cfg : Config) (o : NetOracle) (url : String) (st : ClientState) :
    Option HttpResponse × Nat × ClientState × List Event :=
  match storeGet cfg st.store url with
  | some cached =>
    if tokenExpired cached o.now then
      (none, 0, { st with store := storeDel cfg st.store url }, [.storeDelete url])
    else
      let res := o.resp 0
      if res.status ≠ 402 then
        (some res, 1, st, [.req (some cached.authorization) res])
      else
        (none, 1, { st with store := storeDel cfg st.store url },
          [.req (some cached.authorization) res, .storeDelete url])
  | none => (none, 0, st, [])

/-- The credential stored at step 6 of `l402Fetch` (`src/client/fetch.ts`
lines 214–224): `parsed = parseAuthorization(payment.authorization)`, then
`macaroon: parsed?.macaroon ?? challenge.macaroon`,
`preimage: payment.preimage ?? parsed?.preimage ?? ""`,
`paidAt: new Date()`, `expiresAt` from the 402 body.  `a` is the payer's
(truthy) authorization value. -/
def mkStoredToken (challenge : ChallengePair) (payment : PayResult) (a : String)
    (body : Option JsonBody) (now : Int) : L402Token :=
  { macaroon := ((parseAuthorization a).map AuthPair.macaroon).getD challenge.macaroon,
    preimage :=
      match payment.preimage with
      | some pi => pi
      | none =>
        match parseAuthorization a with
        | some pr => pr.preimage
        | none => "",
    authorization := a,
    paidAt := now,
    expiresAt := bodyExpiresAt body }

/-- Steps 2–7 of `l402Fetch`: the unauthenticated request, challenge
parsing, budget checks, payment, caching, and the single retry.  `k` is the
index of the next HTTP request of this call. -/
def fetchCore (cfg : Config) (o : NetOracle) (url : String) (st : ClientState)
    (k : Nat) : Except L402Err HttpResponse × ClientState × List Event :=
  let res := o.resp k
  if res.status ≠ 402 then (.ok res, st, [.req none res])
  else
    match res.wwwAuthenticate with
    | none =>
      (.error (.l402Error "402 response missing WWW-Authenticate header"), st,
        [.req none res])
    | some wwwAuth =>
      match parseChallenge wwwAuth with
      | none => (.error (.l402Error "Could not parse L402 challenge"), st, [.req none res])
      | some challenge =>
        let price := priceOf res.body
        if price > effMaxPrice cfg then
          (.error (.budgetExceeded ("Price " ++ toString price ++
            " sats exceeds maxPrice " ++ toString (effMaxPrice cfg))), st,
            [.req none res])
        else
          match Budget.check st.budget price o.now with
          | (b1, some err) => (.error err, { st with budget := b1 }, [.req none res])
          | (b1, none) =>
            let st1 : ClientState := { st with budget := b1 }
            let payment := o.pay
            if payment.status = "failed" then
              (.error (.paymentFailed "L402 payment failed"), st1,
                [.req none res, .payerCall wwwAuth])
            else
              match payment.authorization with
              | none =>
                (.error (.paymentFailed "Payment did not return authorization token"),
                  st1, [.req none res, .payerCall wwwAuth])
              | some a =>
                if a = "" then
                  (.error (.paymentFailed "Payment did not return authorization token"),
                    st1, [.req none res, .payerCall wwwAuth])
                else
                  let tok : L402Token := mkStoredToken challenge payment a res.body o.now
                  let st2 : ClientState := { st1 with store := storeSet cfg st1.store url tok }
                  let st3 : ClientState :=
                    { st2 with budget := st2.budget.record (payment.amount.getD price) o.now }
                  let retry := o.resp (k + 1)
                  if retry.status = 402 then
                    (.error (.paymentFailed "Server returned 402 after successful payment"),
                      st3,
                      [.req none res, .payerCall wwwAuth, .storeSet url tok,
                        .req (some a) retry])
                  else
                    (.ok retry, st3,
                      [.req none res, .payerCall wwwAuth, .storeSet url tok,
                        .req (some a) retry])

/-- The `l402Fetch` closure of `client` in `src/client/fetch.ts`: token
cache phase, then the challenge/pay/retry pipeline. -/
def l402Fetch (cfg : Config) (o : NetOracle) (url : String) (st : ClientState) :
    Except L402Err HttpResponse × ClientState × List Event :=
  match step1 cfg o url st with
  | (some res, _, st1, ev) => (.ok res, st1, ev)
  | (none, k, st1, ev) =>
    let out := fetchCore cfg o url st1 k
    (out.1, out.2.1, ev ++ out.2.2)

/-- Number of payer invocations recorded in a trace. -/
def payerCount (tr : List Event) : Nat :=
  tr.countP fun e =>
    match e with
    | .payerCall _ => true
    | _ => false

/-- Result of `ln.l402.verify` as far as the middleware reads it. -/
structure VerifyResult where
  valid : Bool
  paymentHash : Option String
  caveats : Option (List String)
deriving DecidableEq, Repr

/-- The `req.l402` data attached on successful verification
(`L402RequestData` in `src/types.ts`; `result.paymentHash!` is only a type
assertion, so the runtime value is passed through unchanged). -/
structure L402RequestData where
  paymentHash : Option String
  caveats : Option (List String)
deriving DecidableEq, Repr

/-- Result of `ln.l402.createChallenge` as far as the middleware reads it. -/
structure ChallengeMint where
  wwwAuthenticate : String
  invoice : String
  macaroon : String
deriving DecidableEq, Repr

/-- The structured 402 body emitted by the paywall middleware. -/
structure Body402 where
  type : String
  title : String
  detail : String
  invoice : String
  macaroon : String
  price : Int
  unit : String
  description : Option String
deriving DecidableEq, Repr

/-- Oracle for the middleware's collaborators: the verifier and the
challenge minter may each throw (`.error`); `price` is the value of
`await resolvePrice(options.price, req)`. -/
structure PaywallOracle where
  verify : Except Unit VerifyResult
  challenge : Except Unit ChallengeMint
  price : Int

/-- Outcome of one middleware invocation: pass to the protected handler with
`req.l402` attached, respond 402 with the challenge header and body, or
propagate a minting failure to `next(err)`. -/
inductive PaywallOutcome where
  | next (dat : L402RequestData)
  | respond402 (wwwAuth : String) (body : Body402)
  | nextErr
deriving DecidableEq, Repr

/-- Steps 1–2 of the `paywall` middleware of `src/server/middleware.ts`:
the scheme test and the verification `try` block.  `authHeader` is
`req.headers["authorization"]`; the `h ≠ ""` conjunct models the JS
truthiness test in `authHeader && authHeader.startsWith("L402 ")`.  The
result is the `req.l402` data when the request is passed on, else `none`
(an exception from the verifier and an invalid result both land here). -/
def paywallVerify (o : PaywallOracle) (authHeader : Option String) :
    Option L402RequestData :=
  match authHeader with
  | some h =>
    if h ≠ "" ∧ "L402 ".toList.isPrefixOf h.toList then
      match o.verify with
      | .ok r => if r.valid then some ⟨r.paymentHash, r.caveats⟩ else none
      | .error _ => none
    else none
  | none => none

/-- The `paywall` middleware of `src/server/middleware.ts`: verify, else
mint a challenge and respond 402 (steps 3–4), propagating a minting failure
to `next(err)`. -/
def paywall (o : PaywallOracle) (authHeader : Option String)
    (description : Option String) : PaywallOutcome :=
  match paywallVerify o authHeader with
  | some dat => .next dat
  | none =>
    match o.challenge with
    | .ok ch =>
      .respond402 ch.wwwAuthenticate
        { type := "payment_required", title := "Payment Required",
          detail := "Pay the included Lightning invoice to access this resource.",
          invoice := ch.invoice, macaroon := ch.macaroon, price := o.price,
          unit := "satoshis", description := description }
    | .error _ => .nextErr

/-- Step 1 never touches the budget. -/
theorem step1_budget (cfg : Config) (o : NetOracle) (url : String)
    (st : ClientState) : ((step1 cfg o url st).2.2.1).budget = st.budget := by
  unfold step1
  split
  · split
    · rfl
    · by_cases h : (o.resp 0).status = 402 <;> simp [h]
  · rfl

/-- Step 1 never invokes the payer. -/
theorem step1_payerCount (cfg : Config) (o : NetOracle) (url : String)
    (st : ClientState) : payerCount (step1 cfg o url st).2.2.2 = 0 := by
  unfold step1
  split
  · split
    · simp [payerCount]
    · by_cases h : (o.resp 0).status = 402 <;> simp [h, payerCount]
  · simp [payerCount]

/-- `Map.set` followed by lookup at the same key. -/
theorem getKV_setKV (s : List (String × L402Token)) (k : String) (v : L402Token) :
    getKV (setKV s k v) k = some v := by
  induction s with
  | nil => simp [setKV, getKV]
  | cons hd tl ih =>
    obtain ⟨k', v'⟩ := hd
    by_cases h : k' = k
    · simp [setKV, getKV, h]
    · simp [setKV, getKV, h, ih]

/-- Payer invocations add up over trace concatenation. -/
theorem payerCount_append (a b : List Event) :
    payerCount (a ++ b) = payerCount a + payerCount b := by
  simp [payerCount, List.countP_append]

/-- C1: a request whose URL has a cached, non-expired credential attaches
that credential's `authorization` value as the Authorization header, issues
the request, and when the response is not 402 returns it unchanged with no
further action — in particular the payer is invoked zero times, which is
exactly the situation of a second request for the same URL after a first
successful payment. -/
theorem c1_cached_credential_no_payment (cfg : Config) (o : NetOracle)
    (url : String) (st : ClientState) (tok : L402Token)
    (hget : storeGet cfg st.store url = some tok)
    (hexp : tokenExpired tok o.now = false)
    (hst : (o.resp 0).status ≠ 402) :
    l402Fetch cfg o url st =
      (.ok (o.resp 0), st, [.req (some tok.authorization) (o.resp 0)]) ∧
      payerCount (l402Fetch cfg o url st).2.2 = 0 := by
  have h1 : step1 cfg o url st =
      (some (o.resp 0), 1, st, [.req (some tok.authorization) (o.resp 0)]) := by
    unfold step1
    rw [hget]
    simp [hexp, hst]
  constructor
  · simp [l402Fetch, h1]
  · simp [l402Fetch, h1, payerCount]

/-- C1 witness: a concrete second request for an already-paid URL — the
store holds a non-expiring credential, the server answers 200, and the
result is that response with a single authenticated request and zero payer
invocations. -/
theorem c1_witness :
    l402Fetch ⟨none, none, none, false, id⟩
        ⟨fun _ => ⟨200, none, none⟩, ⟨none, none, none, "settled"⟩, 0⟩ "u"
        ⟨[("u", ⟨"m", "p", "L402 m:p", 0, none⟩)], ⟨0, 0, none, none⟩⟩ =
      (.ok ⟨200, none, none⟩,
        ⟨[("u", ⟨"m", "p", "L402 m:p", 0, none⟩)], ⟨0, 0, none, none⟩⟩,
        [.req (some "L402 m:p") ⟨200, none, none⟩]) ∧
      payerCount (l402Fetch ⟨none, none, none, false, id⟩
        ⟨fun _ => ⟨200, none, none⟩, ⟨none, none, none, "settled"⟩, 0⟩ "u"
        ⟨[("u", ⟨"m", "p", "L402 m:p", 0, none⟩)], ⟨0, 0, none, none⟩⟩).2.2 = 0 :=
  c1_cached_credential_no_payment _ _ _ _ ⟨"m", "p", "L402 m:p", 0, none⟩
    (by decide) (by decide) (by decide)

/-- C4 (amended): `check` is a no-op when no total limit is configured;
otherwise it performs the lazy period reset and fails exactly when
`spent + price > totalLimit` after that reset, with spent/total/attempted in
the message; `check` never adds the price to `spent` — its only mutation is
the lazy reset, which zeroes `spent` and restarts the period. -/
theorem c4_budget_check (b : Budget) (price now : Int) :
    (b.totalSats = none → Budget.check b price now = (b, none)) ∧
    (∀ total : Int, b.totalSats = some total →
      Budget.check b price now =
        (b.maybeReset now,
          if (b.maybeReset now).spent + price > total then
            some (.budgetExceeded ("Payment of " ++ toString price ++
              " sats would exceed budget (" ++ toString (b.maybeReset now).spent ++
              "/" ++ toString total ++ " sats spent)"))
          else none)) ∧
    ((Budget.check b price now).1 = b ∨
      (Budget.check b price now).1 = { b with spent := 0, periodStart := now }) := by
  refine ⟨?_, ?_, ?_⟩
  · intro h
    simp [Budget.check, h]
  · intro total h
    simp only [Budget.check, h]
    by_cases hc : (b.maybeReset now).spent + price > total <;> simp [hc]
  · rcases hts : b.totalSats with _ | total
    · left
      simp [Budget.check, hts]
    · have hmr : (Budget.check b price now).1 = b.maybeReset now := by
        simp only [Budget.check, hts]
        by_cases hc : (b.maybeReset now).spent + price > total <;> simp [hc]
      rw [hmr]
      unfold Budget.maybeReset
      rcases hp : b.periodMs with _ | p
      · left
        rfl
      · by_cases hcc : p ≠ 0 ∧ now - b.periodStart ≥ p
        · right
          simp [hcc, hts]
        · left
          simp [hcc]

/-- C4 witness: the spec's own example — after recording 60 sats against a
total budget of 100 with a daily period, `check 60` fails with the message
reporting spent=60, total=100, attempted=60, and leaves the state as it
was. -/
theorem c4_witness :
    Budget.check
        (Budget.record (Budget.new ⟨none, some 100, some "day", false, id⟩ 0) 60 0) 60 0 =
      (Budget.record (Budget.new ⟨none, some 100, some "day", false, id⟩ 0) 60 0,
        some (.budgetExceeded
          "Payment of 60 sats would exceed budget (60/100 sats spent)")) := by
  have h := (c4_budget_check
      (Budget.record (Budget.new ⟨none, some 100, some "day", false, id⟩ 0) 60 0)
      60 0).2.1 100 (by decide)
  rw [h]
  decide

/-- C4 counterexample: the claim's clause "`check` never mutates `spent`" is
false — with a configured period, a `check` performed after the period has
elapsed resets `spent` from 60 to 0. -/
theorem c4_counterexample :
    (Budget.check ⟨60, 0, some 100, some 3600000⟩ 0 3600000).1.spent ≠
      (Budget.mk 60 0 (some 100) (some 3600000)).spent := by decide

/-- C8: when the verifier throws or reports an invalid credential, the
middleware's outcome is identical to the outcome for a request presenting
no credential at all — a fresh 402 challenge (or the generic error path if
minting fails), and never the protected handler. -/
theorem c8_verify_failure_indistinguishable (o : PaywallOracle)
    (authHeader : Option String) (description : Option String)
    (hfail : o.verify = .error () ∨ ∃ r, o.verify = .ok r ∧ r.valid = false) :
    paywall o authHeader description = paywall o none description ∧
      ∀ dat, paywall o authHeader description ≠ .next dat := by
  have hv : paywallVerify o authHeader = none := by
    cases authHeader with
    | none => rfl
    | some h =>
      simp only [paywallVerify]
      by_cases hcond : h ≠ "" ∧ "L402 ".toList.isPrefixOf h.toList = true
      · rw [if_pos hcond]
        rcases hfail with hf | ⟨r, hr, hval⟩
        · rw [hf]
        · rw [hr]
          simp [hval]
      · rw [if_neg hcond]
  constructor
  · unfold paywall
    rw [hv]
    rfl
  · intro dat
    unfold paywall
    rw [hv]
    cases o.challenge <;> simp

/-- C8 witness: a concrete request with an L402 header that the verifier
rejects — the middleware behaves exactly as for an unauthenticated request
and does not invoke the handler. -/
theorem c8_witness :
    paywall ⟨.ok ⟨false, none, none⟩,
        .ok ⟨"L402 macaroon=\"m\", invoice=\"i\"", "i", "m"⟩, 10⟩
        (some "L402 m:p") none =
      paywall ⟨.ok ⟨false, none, none⟩,
        .ok ⟨"L402 macaroon=\"m\", invoice=\"i\"", "i", "m"⟩, 10⟩
        none none ∧
      ∀ dat, paywall ⟨.ok ⟨false, none, none⟩,
        .ok ⟨"L402 macaroon=\"m\", invoice=\"i\"", "i", "m"⟩, 10⟩
        (some "L402 m:p") none ≠ .next dat :=
  c8_verify_failure_indistinguishable _ _ _
    (Or.inr ⟨⟨false, none, none⟩, rfl, rfl⟩)

/-- Every run of the challenge pipeline starts by issuing the
unauthenticated request. -/
theorem fetchCore_trace_head (cfg : Config) (o : NetOracle) (url : String)
    (st : ClientState) (k : Nat) :
    ∃ rest, (fetchCore cfg o url st k).2.2 = .req none (o.resp k) :: rest := by
  simp only [fetchCore]
  repeat' split
  all_goals exact ⟨_, rfl⟩

/-- The per-request ceiling branch of `fetchCore`: a 402 with a parsed
challenge whose price hint exceeds `maxPrice` throws the budget error
before the payer and before `budget.check`. -/
theorem overMaxPrice_core (cfg : Config) (o : NetOracle) (url : String)
    (st1 : ClientState) (k : Nat)
    (h402 : (o.resp k).status = 402)
    (w : String) (hw : (o.resp k).wwwAuthenticate = some w)
    (ch : ChallengePair) (hch : parseChallenge w = some ch)
    (hmax : priceOf (o.resp k).body > effMaxPrice cfg) :
    fetchCore cfg o url st1 k =
      (.error (.budgetExceeded ("Price " ++ toString (priceOf (o.resp k).body) ++
        " sats exceeds maxPrice " ++ toString (effMaxPrice cfg))),
        st1, [.req none (o.resp k)]) := by
  simp only [fetchCore, h402, hw, hch]
  simp [hmax]

/-- The successful-payment branch of `fetchCore`: 402, parsed challenge,
price within the ceiling, `budget.check` passing, payer not failed and
returning a truthy authorization — the new credential is stored, the actual
amount recorded, and the single retry issued with the credential attached;
a 402 retry is the payment-failure error, anything else is returned. -/
theorem payPath_core (cfg : Config) (o : NetOracle) (url : String)
    (st1 : ClientState) (k : Nat)
    (h402 : (o.resp k).status = 402)
    (w : String) (hw : (o.resp k).wwwAuthenticate = some w)
    (ch : ChallengePair) (hch : parseChallenge w = some ch)
    (hmax : ¬ priceOf (o.resp k).body > effMaxPrice cfg)
    (b1 : Budget)
    (hbud : Budget.check st1.budget (priceOf (o.resp k).body) o.now = (b1, none))
    (hs : o.pay.status ≠ "failed")
    (a : String) (ha : o.pay.authorization = some a) (hne : a ≠ "") :
    fetchCore cfg o url st1 k =
      ((if (o.resp (k + 1)).status = 402 then
          .error (.paymentFailed "Server returned 402 after successful payment")
        else .ok (o.resp (k + 1))),
        ⟨storeSet cfg st1.store url (mkStoredToken ch o.pay a (o.resp k).body o.now),
          Budget.record b1 (o.pay.amount.getD (priceOf (o.resp k).body)) o.now⟩,
        [.req none (o.resp k), .payerCall w,
          .storeSet url (mkStoredToken ch o.pay a (o.resp k).body o.now),
          .req (some a) (o.resp (k + 1))]) := by
  simp only [fetchCore, h402, hw, hch, hbud, ha]
  simp only [hmax, if_false]
  simp [hs, hne]
  by_cases hr : (o.resp (k + 1)).status = 402 <;> simp [hr]

/-- C3: when the parsed price hint of a 402 response exceeds the configured
maximum-per-request price, `l402Fetch` fails with the budget-kind error
carrying the attempted price in its message, invokes the payer zero times,
and leaves the Budget Tracker untouched. -/
theorem c3_per_request_ceiling (cfg : Config) (o : NetOracle) (url : String)
    (st st1 : ClientState) (k : Nat) (pre : List Event)
    (hstep : step1 cfg o url st = (none, k, st1, pre))
    (h402 : (o.resp k).status = 402)
    (w : String) (hw : (o.resp k).wwwAuthenticate = some w)
    (ch : ChallengePair) (hch : parseChallenge w = some ch)
    (hmax : priceOf (o.resp k).body > effMaxPrice cfg) :
    l402Fetch cfg o url st =
      (.error (.budgetExceeded ("Price " ++ toString (priceOf (o.resp k).body) ++
        " sats exceeds maxPrice " ++ toString (effMaxPrice cfg))),
        st1, pre ++ [.req none (o.resp k)]) ∧
      payerCount (l402Fetch cfg o url st).2.2 = 0 ∧
      ((l402Fetch cfg o url st).2.1).budget = st.budget := by
  have hcore := overMaxPrice_core cfg o url st1 k h402 w hw ch hch hmax
  have hpre : payerCount pre = 0 := by
    have h := step1_payerCount cfg o url st
    rw [hstep] at h
    exact h
  have hbud : st1.budget = st.budget := by
    have h := step1_budget cfg o url st
    rw [hstep] at h
    exact h
  have hmain : l402Fetch cfg o url st =
      (.error (.budgetExceeded ("Price " ++ toString (priceOf (o.resp k).body) ++
        " sats exceeds maxPrice " ++ toString (effMaxPrice cfg))),
        st1, pre ++ [.req none (o.resp k)]) := by
    simp only [l402Fetch, hstep]
    rw [hcore]
  refine ⟨hmain, ?_, ?_⟩
  · rw [hmain]
    show payerCount (pre ++ [.req none (o.resp k)]) = 0
    rw [payerCount_append, hpre]
    simp [payerCount]
  · rw [hmain]
    exact hbud

/-- C3 witness: a 402 with price hint 500 against a configured `maxPrice`
of 100 (the scenario of the repository's own test) fails with the budget
error, zero payer calls, and an unchanged budget. -/
theorem c3_witness :
    l402Fetch ⟨some 100, none, none, false, id⟩
        ⟨fun _ => ⟨402, some "L402 macaroon=\"mac\", invoice=\"inv\"",
          some ⟨some 500, none⟩⟩, ⟨none, none, none, "settled"⟩, 0⟩ "u"
        ⟨[], ⟨0, 0, none, none⟩⟩ =
      (.error (.budgetExceeded ("Price " ++ toString (500 : Int) ++
        " sats exceeds maxPrice " ++ toString (effMaxPrice ⟨some 100, none, none, false, id⟩))),
        ⟨[], ⟨0, 0, none, none⟩⟩,
        [] ++ [.req none ⟨402, some "L402 macaroon=\"mac\", invoice=\"inv\"",
          some ⟨some 500, none⟩⟩]) ∧
      payerCount (l402Fetch ⟨some 100, none, none, false, id⟩
        ⟨fun _ => ⟨402, some "L402 macaroon=\"mac\", invoice=\"inv\"",
          some ⟨some 500, none⟩⟩, ⟨none, none, none, "settled"⟩, 0⟩ "u"
        ⟨[], ⟨0, 0, none, none⟩⟩).2.2 = 0 ∧
      ((l402Fetch ⟨some 100, none, none, false, id⟩
        ⟨fun _ => ⟨402, some "L402 macaroon=\"mac\", invoice=\"inv\"",
          some ⟨some 500, none⟩⟩, ⟨none, none, none, "settled"⟩, 0⟩ "u"
        ⟨[], ⟨0, 0, none, none⟩⟩).2.1).budget = (⟨0, 0, none, none⟩ : Budget) :=
  c3_per_request_ceiling ⟨some 100, none, none, false, id⟩
    ⟨fun _ => ⟨402, some "L402 macaroon=\"mac\", invoice=\"inv\"",
      some ⟨some 500, none⟩⟩, ⟨none, none, none, "settled"⟩, 0⟩ "u"
    ⟨[], ⟨0, 0, none, none⟩⟩ ⟨[], ⟨0, 0, none, none⟩⟩ 0 []
    (by decide) (by decide)
    "L402 macaroon=\"mac\", invoice=\"inv\"" (by decide)
    ⟨"mac", "inv"⟩ (by decide) (by decide)

/-- C9: a cached credential whose `expiresAt` equals the current time is
already expired — it is deleted from the store and the request goes out
unauthenticated; a cached credential with no `expiresAt` is always
attached, whatever the current time. -/
theorem c9_expiry_boundary (cfg : Config) (o : NetOracle) (url : String)
    (st : ClientState) (tok : L402Token)
    (hget : storeGet cfg st.store url = some tok) :
    (tok.expiresAt = some o.now →
      ∃ rest, (l402Fetch cfg o url st).2.2 =
        .storeDelete url :: .req none (o.resp 0) :: rest) ∧
    (tok.expiresAt = none →
      (l402Fetch cfg o url st).2.2.head? =
        some (.req (some tok.authorization) (o.resp 0))) := by
  constructor
  · intro he
    have hexp : tokenExpired tok o.now = true := by
      simp [tokenExpired, he]
    have h1 : step1 cfg o url st =
        (none, 0, { st with store := storeDel cfg st.store url }, [.storeDelete url]) := by
      unfold step1
      rw [hget]
      simp [hexp]
    obtain ⟨rest, hrest⟩ :=
      fetchCore_trace_head cfg o url { st with store := storeDel cfg st.store url } 0
    refine ⟨rest, ?_⟩
    simp [l402Fetch, h1, hrest]
  · intro he
    have hexp : tokenExpired tok o.now = false := by
      simp [tokenExpired, he]
    by_cases hs : (o.resp 0).status = 402
    · have h1 : step1 cfg o url st =
          (none, 1, { st with store := storeDel cfg st.store url },
            [.req (some tok.authorization) (o.resp 0), .storeDelete url]) := by
        unfold step1
        rw [hget]
        simp [hexp, hs]
      simp [l402Fetch, h1]
    · have h1 : step1 cfg o url st =
          (some (o.resp 0), 1, st, [.req (some tok.authorization) (o.resp 0)]) := by
        unfold step1
        rw [hget]
        simp [hexp, hs]
      simp [l402Fetch, h1]

/-- C9 witness: with a credential expiring exactly now (t = 5), the trace
starts with the deletion and an unauthenticated request; with no expiry the
same credential is attached. -/
theorem c9_witness :
    (∃ rest, (l402Fetch ⟨none, none, none, false, id⟩
        ⟨fun _ => ⟨402, none, none⟩, ⟨none, none, none, "settled"⟩, 5⟩ "u"
        ⟨[("u", ⟨"m", "p", "L402 m:p", 0, some 5⟩)], ⟨0, 0, none, none⟩⟩).2.2 =
      .storeDelete "u" :: .req none ⟨402, none, none⟩ :: rest) ∧
    (l402Fetch ⟨none, none, none, false, id⟩
        ⟨fun _ => ⟨402, none, none⟩, ⟨none, none, none, "settled"⟩, 5⟩ "u"
        ⟨[("u", ⟨"m", "p", "L402 m:p", 0, none⟩)], ⟨0, 0, none, none⟩⟩).2.2.head? =
      some (.req (some "L402 m:p") ⟨402, none, none⟩) :=
  ⟨(c9_expiry_boundary ⟨none, none, none, false, id⟩
      ⟨fun _ => ⟨402, none, none⟩, ⟨none, none, none, "settled"⟩, 5⟩ "u"
      ⟨[("u", ⟨"m", "p", "L402 m:p", 0, some 5⟩)], ⟨0, 0, none, none⟩⟩
      ⟨"m", "p", "L402 m:p", 0, some 5⟩ (by decide)).1 (by decide),
    (c9_expiry_boundary ⟨none, none, none, false, id⟩
      ⟨fun _ => ⟨402, none, none⟩, ⟨none, none, none, "settled"⟩, 5⟩ "u"
      ⟨[("u", ⟨"m", "p", "L402 m:p", 0, none⟩)], ⟨0, 0, none, none⟩⟩
      ⟨"m", "p", "L402 m:p", 0, none⟩ (by decide)).2 (by decide)⟩

/-- C10: with no `maxPrice` option the per-request ceiling defaults to 1000
sats — a 402 whose price hint is 1001 or more fails with the budget error
and zero payer invocations, while a hint of at most 1000 passes the
per-request check `price > maxPrice`. -/
theorem c10_default_max_price (cfg : Config) (hmp : cfg.maxPrice = none) :
    effMaxPrice cfg = 1000 ∧
    (∀ (o : NetOracle) (url : String) (st st1 : ClientState) (k : Nat)
      (pre : List Event) (w : String) (ch : ChallengePair),
      step1 cfg o url st = (none, k, st1, pre) →
      (o.resp k).status = 402 →
      (o.resp k).wwwAuthenticate = some w →
      parseChallenge w = some ch →
      priceOf (o.resp k).body ≥ 1001 →
      l402Fetch cfg o url st =
        (.error (.budgetExceeded ("Price " ++ toString (priceOf (o.resp k).body) ++
          " sats exceeds maxPrice " ++ toString (effMaxPrice cfg))),
          st1, pre ++ [.req none (o.resp k)]) ∧
        payerCount (l402Fetch cfg o url st).2.2 = 0) ∧
    (∀ body : Option JsonBody, priceOf body ≤ 1000 →
      ¬ priceOf body > effMaxPrice cfg) := by
  have hm : effMaxPrice cfg = 1000 := by
    simp [effMaxPrice, hmp]
  refine ⟨hm, ?_, ?_⟩
  · intro o url st st1 k pre w ch hstep h402 hw hch hp
    have hmax : priceOf (o.resp k).body > effMaxPrice cfg := by
      rw [hm]
      omega
    have hcore := overMaxPrice_core cfg o url st1 k h402 w hw ch hch hmax
    have hpre : payerCount pre = 0 := by
      have h := step1_payerCount cfg o url st
      rw [hstep] at h
      exact h
    have hmain : l402Fetch cfg o url st =
        (.error (.budgetExceeded ("Price " ++ toString (priceOf (o.resp k).body) ++
          " sats exceeds maxPrice " ++ toString (effMaxPrice cfg))),
          st1, pre ++ [.req none (o.resp k)]) := by
      simp only [l402Fetch, hstep]
      rw [hcore]
    refine ⟨hmain, ?_⟩
    rw [hmain]
    show payerCount (pre ++ [.req none (o.resp k)]) = 0
    rw [payerCount_append, hpre]
    simp [payerCount]
  · intro body hb
    rw [hm]
    omega

/-- C10 witness: the repository test's scenario — no `maxPrice` configured,
a 402 with price hint 1001 fails with "exceeds maxPrice 1000" and no payer
call, while a hint of 1000 passes the per-request check. -/
theorem c10_witness :
    effMaxPrice ⟨none, none, none, false, id⟩ = 1000 ∧
    (l402Fetch ⟨none, none, none, false, id⟩
        ⟨fun _ => ⟨402, some "L402 macaroon=\"mac\", invoice=\"inv\"",
          some ⟨some 1001, none⟩⟩, ⟨none, none, none, "settled"⟩, 0⟩ "u"
        ⟨[], ⟨0, 0, none, none⟩⟩ =
      (.error (.budgetExceeded ("Price " ++ toString ((1001 : Int)) ++
        " sats exceeds maxPrice " ++ toString (effMaxPrice ⟨none, none, none, false, id⟩))),
        ⟨[], ⟨0, 0, none, none⟩⟩,
        [] ++ [.req none ⟨402, some "L402 macaroon=\"mac\", invoice=\"inv\"",
          some ⟨some 1001, none⟩⟩]) ∧
      payerCount (l402Fetch ⟨none, none, none, false, id⟩
        ⟨fun _ => ⟨402, some "L402 macaroon=\"mac\", invoice=\"inv\"",
          some ⟨some 1001, none⟩⟩, ⟨none, none, none, "settled"⟩, 0⟩ "u"
        ⟨[], ⟨0, 0, none, none⟩⟩).2.2 = 0) ∧
    ¬ priceOf (some ⟨some 1000, none⟩) > effMaxPrice ⟨none, none, none, false, id⟩ := by
  have h := c10_default_max_price ⟨none, none, none, false, id⟩ rfl
  exact ⟨h.1,
    h.2.1 ⟨fun _ => ⟨402, some "L402 macaroon=\"mac\", invoice=\"inv\"",
        some ⟨some 1001, none⟩⟩, ⟨none, none, none, "settled"⟩, 0⟩ "u"
      ⟨[], ⟨0, 0, none, none⟩⟩ ⟨[], ⟨0, 0, none, none⟩⟩ 0 []
      "L402 macaroon=\"mac\", invoice=\"inv\"" ⟨"mac", "inv"⟩
      (by decide) (by decide) (by decide) (by decide) (by decide),
    h.2.2 (some ⟨some 1000, none⟩) (by decide)⟩

/-- C2: whenever the payer settles and returns a (truthy) authorization,
exactly one retry of the original request is issued, carrying the new
credential; if that retry is again 402, `l402Fetch` fails with the
payment-failure error, and in every case nothing follows the retry — the
trace ends there, with exactly one payer invocation. -/
theorem c2_single_retry (cfg : Config) (o : NetOracle) (url : String)
    (st st1 : ClientState) (k : Nat) (pre : List Event)
    (hstep : step1 cfg o url st = (none, k, st1, pre))
    (h402 : (o.resp k).status = 402)
    (w : String) (hw : (o.resp k).wwwAuthenticate = some w)
    (ch : ChallengePair) (hch : parseChallenge w = some ch)
    (hmax : ¬ priceOf (o.resp k).body > effMaxPrice cfg)
    (b1 : Budget)
    (hbud : Budget.check st1.budget (priceOf (o.resp k).body) o.now = (b1, none))
    (hs : o.pay.status ≠ "failed")
    (a : String) (ha : o.pay.authorization = some a) (hne : a ≠ "") :
    (l402Fetch cfg o url st).2.2 =
      pre ++ [.req none (o.resp k), .payerCall w,
        .storeSet url (mkStoredToken ch o.pay a (o.resp k).body o.now),
        .req (some a) (o.resp (k + 1))] ∧
    payerCount (l402Fetch cfg o url st).2.2 = 1 ∧
    ((o.resp (k + 1)).status = 402 →
      (l402Fetch cfg o url st).1 =
        .error (.paymentFailed "Server returned 402 after successful payment")) ∧
    ((o.resp (k + 1)).status ≠ 402 →
      (l402Fetch cfg o url st).1 = .ok (o.resp (k + 1))) := by
  have hcore := payPath_core cfg o url st1 k h402 w hw ch hch hmax b1 hbud hs a ha hne
  have hpre : payerCount pre = 0 := by
    have h := step1_payerCount cfg o url st
    rw [hstep] at h
    exact h
  have hfetch : l402Fetch cfg o url st =
      ((if (o.resp (k + 1)).status = 402 then
          .error (.paymentFailed "Server returned 402 after successful payment")
        else .ok (o.resp (k + 1))),
        ⟨storeSet cfg st1.store url (mkStoredToken ch o.pay a (o.resp k).body o.now),
          Budget.record b1 (o.pay.amount.getD (priceOf (o.resp k).body)) o.now⟩,
        pre ++ [.req none (o.resp k), .payerCall w,
          .storeSet url (mkStoredToken ch o.pay a (o.resp k).body o.now),
          .req (some a) (o.resp (k + 1))]) := by
    simp only [l402Fetch, hstep]
    rw [hcore]
  refine ⟨?_, ?_, ?_, ?_⟩
  · rw [hfetch]
  · rw [hfetch]
    show payerCount (pre ++ _) = 1
    rw [payerCount_append, hpre]
    simp [payerCount]
  · intro hr
    rw [hfetch]
    simp [hr]
  · intro hr
    rw [hfetch]
    simp [hr]

/-- C2 witness: a fresh 402 paid successfully, whose retry is 200 — the
trace is request, payer call, store write, authenticated retry; one payer
invocation; and the result is the retry response. -/
theorem c2_witness :
    (l402Fetch ⟨none, none, none, false, id⟩
        ⟨fun k => if k = 0 then ⟨402, some "L402 macaroon=\"mac\", invoice=\"inv\"",
            some ⟨some 10, none⟩⟩ else ⟨200, none, none⟩,
          ⟨some "L402 mac:pre", some "pre", some 10, "settled"⟩, 0⟩ "u"
        ⟨[], ⟨0, 0, none, none⟩⟩).2.2 =
      [] ++ [.req none ⟨402, some "L402 macaroon=\"mac\", invoice=\"inv\"",
          some ⟨some 10, none⟩⟩,
        .payerCall "L402 macaroon=\"mac\", invoice=\"inv\"",
        .storeSet "u" (mkStoredToken ⟨"mac", "inv"⟩
          ⟨some "L402 mac:pre", some "pre", some 10, "settled"⟩ "L402 mac:pre"
          (some ⟨some 10, none⟩) 0),
        .req (some "L402 mac:pre") ⟨200, none, none⟩] ∧
    payerCount (l402Fetch ⟨none, none, none, false, id⟩
        ⟨fun k => if k = 0 then ⟨402, some "L402 macaroon=\"mac\", invoice=\"inv\"",
            some ⟨some 10, none⟩⟩ else ⟨200, none, none⟩,
          ⟨some "L402 mac:pre", some "pre", some 10, "settled"⟩, 0⟩ "u"
        ⟨[], ⟨0, 0, none, none⟩⟩).2.2 = 1 ∧
    ((⟨200, none, none⟩ : HttpResponse).status = 402 →
      (l402Fetch ⟨none, none, none, false, id⟩
        ⟨fun k => if k = 0 then ⟨402, some "L402 macaroon=\"mac\", invoice=\"inv\"",
            some ⟨some 10, none⟩⟩ else ⟨200, none, none⟩,
          ⟨some "L402 mac:pre", some "pre", some 10, "settled"⟩, 0⟩ "u"
        ⟨[], ⟨0, 0, none, none⟩⟩).1 =
        .error (.paymentFailed "Server returned 402 after successful payment")) ∧
    ((⟨200, none, none⟩ : HttpResponse).status ≠ 402 →
      (l402Fetch ⟨none, none, none, false, id⟩
        ⟨fun k => if k = 0 then ⟨402, some "L402 macaroon=\"mac\", invoice=\"inv\"",
            some ⟨some 10, none⟩⟩ else ⟨200, none, none⟩,
          ⟨some "L402 mac:pre", some "pre", some 10, "settled"⟩, 0⟩ "u"
        ⟨[], ⟨0, 0, none, none⟩⟩).1 = .ok ⟨200, none, none⟩) :=
  c2_single_retry ⟨none, none, none, false, id⟩
    ⟨fun k => if k = 0 then ⟨402, some "L402 macaroon=\"mac\", invoice=\"inv\"",
        some ⟨some 10, none⟩⟩ else ⟨200, none, none⟩,
      ⟨some "L402 mac:pre", some "pre", some 10, "settled"⟩, 0⟩ "u"
    ⟨[], ⟨0, 0, none, none⟩⟩ ⟨[], ⟨0, 0, none, none⟩⟩ 0 []
    (by decide) (by decide)
    "L402 macaroon=\"mac\", invoice=\"inv\"" (by decide)
    ⟨"mac", "inv"⟩ (by decide) (by decide)
    ⟨0, 0, none, none⟩ (by decide) (by decide)
    "L402 mac:pre" (by decide) (by decide)

/-- C5: on a settled payment the amount recorded against the budget is
`payment.amount ?? price` — the payer's actual amount when reported, the
402 body's price hint only as a fallback when the payer reports none. -/
theorem c5_actual_amount_recorded (cfg : Config) (o : NetOracle) (url : String)
    (st st1 : ClientState) (k : Nat) (pre : List Event)
    (hstep : step1 cfg o url st = (none, k, st1, pre))
    (h402 : (o.resp k).status = 402)
    (w : String) (hw : (o.resp k).wwwAuthenticate = some w)
    (ch : ChallengePair) (hch : parseChallenge w = some ch)
    (hmax : ¬ priceOf (o.resp k).body > effMaxPrice cfg)
    (b1 : Budget)
    (hbud : Budget.check st1.budget (priceOf (o.resp k).body) o.now = (b1, none))
    (hs : o.pay.status ≠ "failed")
    (a : String) (ha : o.pay.authorization = some a) (hne : a ≠ "") :
    ((l402Fetch cfg o url st).2.1).budget =
      Budget.record b1 (o.pay.amount.getD (priceOf (o.resp k).body)) o.now ∧
    (∀ amt : Int, o.pay.amount = some amt →
      ((l402Fetch cfg o url st).2.1).budget = Budget.record b1 amt o.now) ∧
    (o.pay.amount = none →
      ((l402Fetch cfg o url st).2.1).budget =
        Budget.record b1 (priceOf (o.resp k).body) o.now) := by
  have hcore := payPath_core cfg o url st1 k h402 w hw ch hch hmax b1 hbud hs a ha hne
  have hfetch : ((l402Fetch cfg o url st).2.1).budget =
      Budget.record b1 (o.pay.amount.getD (priceOf (o.resp k).body)) o.now := by
    simp only [l402Fetch, hstep]
    rw [hcore]
  refine ⟨hfetch, ?_, ?_⟩
  · intro amt hamt
    rw [hfetch, hamt]
    rfl
  · intro hamt
    rw [hfetch, hamt]
    rfl

/-- C5 witness: the payer reports an actual amount of 7 against a price
hint of 10 — the budget records 7; and in the same execution shape the
conditional clauses hold. -/
theorem c5_witness :
    ((l402Fetch ⟨none, none, none, false, id⟩
        ⟨fun k => if k = 0 then ⟨402, some "L402 macaroon=\"mac\", invoice=\"inv\"",
            some ⟨some 10, none⟩⟩ else ⟨200, none, none⟩,
          ⟨some "L402 mac:pre", some "pre", some 7, "settled"⟩, 0⟩ "u"
        ⟨[], ⟨0, 0, none, none⟩⟩).2.1).budget =
      Budget.record ⟨0, 0, none, none⟩
        ((some (7 : Int)).getD (priceOf (some ⟨some 10, none⟩))) 0 ∧
    (∀ amt : Int, some (7 : Int) = some amt →
      ((l402Fetch ⟨none, none, none, false, id⟩
        ⟨fun k => if k = 0 then ⟨402, some "L402 macaroon=\"mac\", invoice=\"inv\"",
            some ⟨some 10, none⟩⟩ else ⟨200, none, none⟩,
          ⟨some "L402 mac:pre", some "pre", some 7, "settled"⟩, 0⟩ "u"
        ⟨[], ⟨0, 0, none, none⟩⟩).2.1).budget = Budget.record ⟨0, 0, none, none⟩ amt 0) ∧
    (some (7 : Int) = none →
      ((l402Fetch ⟨none, none, none, false, id⟩
        ⟨fun k => if k = 0 then ⟨402, some "L402 macaroon=\"mac\", invoice=\"inv\"",
            some ⟨some 10, none⟩⟩ else ⟨200, none, none⟩,
          ⟨some "L402 mac:pre", some "pre", some 7, "settled"⟩, 0⟩ "u"
        ⟨[], ⟨0, 0, none, none⟩⟩).2.1).budget =
        Budget.record ⟨0, 0, none, none⟩ (priceOf (some ⟨some 10, none⟩)) 0) :=
  c5_actual_amount_recorded ⟨none, none, none, false, id⟩
    ⟨fun k => if k = 0 then ⟨402, some "L402 macaroon=\"mac\", invoice=\"inv\"",
        some ⟨some 10, none⟩⟩ else ⟨200, none, none⟩,
      ⟨some "L402 mac:pre", some "pre", some 7, "settled"⟩, 0⟩ "u"
    ⟨[], ⟨0, 0, none, none⟩⟩ ⟨[], ⟨0, 0, none, none⟩⟩ 0 []
    (by decide) (by decide)
    "L402 macaroon=\"mac\", invoice=\"inv\"" (by decide)
    ⟨"mac", "inv"⟩ (by decide) (by decide)
    ⟨0, 0, none, none⟩ (by decide) (by decide)
    "L402 mac:pre" (by decide) (by decide)

/-- C6: a cached, non-expired credential that the server still rejects with
402 is deleted from the store; exactly one re-payment occurs, and the newly
obtained credential replaces the old one under the same key. -/
theorem c6_stale_credential_replaced (cfg : Config) (o : NetOracle) (url : String)
    (st : ClientState) (tokOld : L402Token)
    (hget : storeGet cfg st.store url = some tokOld)
    (hexp : tokenExpired tokOld o.now = false)
    (h0 : (o.resp 0).status = 402)
    (h1 : (o.resp 1).status = 402)
    (w : String) (hw : (o.resp 1).wwwAuthenticate = some w)
    (ch : ChallengePair) (hch : parseChallenge w = some ch)
    (hmax : ¬ priceOf (o.resp 1).body > effMaxPrice cfg)
    (b1 : Budget)
    (hbud : Budget.check st.budget (priceOf (o.resp 1).body) o.now = (b1, none))
    (hs : o.pay.status ≠ "failed")
    (a : String) (ha : o.pay.authorization = some a) (hne : a ≠ "")
    (hretry : (o.resp 2).status ≠ 402) :
    l402Fetch cfg o url st =
      (.ok (o.resp 2),
        ⟨storeSet cfg (storeDel cfg st.store url) url
            (mkStoredToken ch o.pay a (o.resp 1).body o.now),
          Budget.record b1 (o.pay.amount.getD (priceOf (o.resp 1).body)) o.now⟩,
        [.req (some tokOld.authorization) (o.resp 0), .storeDelete url,
          .req none (o.resp 1), .payerCall w,
          .storeSet url (mkStoredToken ch o.pay a (o.resp 1).body o.now),
          .req (some a) (o.resp 2)]) ∧
    payerCount (l402Fetch cfg o url st).2.2 = 1 ∧
    storeGet cfg ((l402Fetch cfg o url st).2.1).store url =
      some (mkStoredToken ch o.pay a (o.resp 1).body o.now) := by
  have hstep : step1 cfg o url st =
      (none, 1, { st with store := storeDel cfg st.store url },
        [.req (some tokOld.authorization) (o.resp 0), .storeDelete url]) := by
    unfold step1
    rw [hget]
    simp [hexp, h0]
  have hcore := payPath_core cfg o url { st with store := storeDel cfg st.store url } 1
    h1 w hw ch hch hmax b1 hbud hs a ha hne
  have hsn : cfg.storeNone = false := by
    cases h : cfg.storeNone with
    | false => rfl
    | true =>
      unfold storeGet at hget
      rw [h] at hget
      simp at hget
  have hmain : l402Fetch cfg o url st =
      (.ok (o.resp 2),
        ⟨storeSet cfg (storeDel cfg st.store url) url
            (mkStoredToken ch o.pay a (o.resp 1).body o.now),
          Budget.record b1 (o.pay.amount.getD (priceOf (o.resp 1).body)) o.now⟩,
        [.req (some tokOld.authorization) (o.resp 0), .storeDelete url,
          .req none (o.resp 1), .payerCall w,
          .storeSet url (mkStoredToken ch o.pay a (o.resp 1).body o.now),
          .req (some a) (o.resp 2)]) := by
    simp only [l402Fetch, hstep]
    rw [hcore]
    simp [hretry]
  refine ⟨hmain, ?_, ?_⟩
  · rw [hmain]
    simp [payerCount]
  · rw [hmain]
    simp only [storeGet, storeSet, hsn]
    simp [getKV_setKV]

/-- C6 witness: a concrete stale-credential run — cached token attached,
rejected with 402, one re-payment, and the store ends up holding the new
credential under the same key. -/
theorem c6_witness :
    l402Fetch ⟨none, none, none, false, id⟩
        ⟨fun k => if k = 2 then ⟨200, none, none⟩
            else ⟨402, some "L402 macaroon=\"mac\", invoice=\"inv\"",
              some ⟨some 5, none⟩⟩,
          ⟨some "L402 mac:pre2", some "pre2", some 5, "settled"⟩, 9⟩ "u"
        ⟨[("u", ⟨"m", "p", "L402 m:p", 0, none⟩)], ⟨0, 0, none, none⟩⟩ =
      (.ok ⟨200, none, none⟩,
        ⟨storeSet ⟨none, none, none, false, id⟩
            (storeDel ⟨none, none, none, false, id⟩
              [("u", ⟨"m", "p", "L402 m:p", 0, none⟩)] "u") "u"
            (mkStoredToken ⟨"mac", "inv"⟩
              ⟨some "L402 mac:pre2", some "pre2", some 5, "settled"⟩ "L402 mac:pre2"
              (some ⟨some 5, none⟩) 9),
          Budget.record ⟨0, 0, none, none⟩
            ((some (5 : Int)).getD (priceOf (some ⟨some 5, none⟩))) 9⟩,
        [.req (some "L402 m:p") ⟨402, some "L402 macaroon=\"mac\", invoice=\"inv\"",
            some ⟨some 5, none⟩⟩, .storeDelete "u",
          .req none ⟨402, some "L402 macaroon=\"mac\", invoice=\"inv\"",
            some ⟨some 5, none⟩⟩,
          .payerCall "L402 macaroon=\"mac\", invoice=\"inv\"",
          .storeSet "u" (mkStoredToken ⟨"mac", "inv"⟩
            ⟨some "L402 mac:pre2", some "pre2", some 5, "settled"⟩ "L402 mac:pre2"
            (some ⟨some 5, none⟩) 9),
          .req (some "L402 mac:pre2") ⟨200, none, none⟩]) ∧
    payerCount (l402Fetch ⟨none, none, none, false, id⟩
        ⟨fun k => if k = 2 then ⟨200, none, none⟩
            else ⟨402, some "L402 macaroon=\"mac\", invoice=\"inv\"",
              some ⟨some 5, none⟩⟩,
          ⟨some "L402 mac:pre2", some "pre2", some 5, "settled"⟩, 9⟩ "u"
        ⟨[("u", ⟨"m", "p", "L402 m:p", 0, none⟩)], ⟨0, 0, none, none⟩⟩).2.2 = 1 ∧
    storeGet ⟨none, none, none, false, id⟩
      ((l402Fetch ⟨none, none, none, false, id⟩
        ⟨fun k => if k = 2 then ⟨200, none, none⟩
            else ⟨402, some "L402 macaroon=\"mac\", invoice=\"inv\"",
              some ⟨some 5, none⟩⟩,
          ⟨some "L402 mac:pre2", some "pre2", some 5, "settled"⟩, 9⟩ "u"
        ⟨[("u", ⟨"m", "p", "L402 m:p", 0, none⟩)], ⟨0, 0, none, none⟩⟩).2.1).store "u" =
      some (mkStoredToken ⟨"mac", "inv"⟩
        ⟨some "L402 mac:pre2", some "pre2", some 5, "settled"⟩ "L402 mac:pre2"
        (some ⟨some 5, none⟩) 9) :=
  c6_stale_credential_replaced ⟨none, none, none, false, id⟩
    ⟨fun k => if k = 2 then ⟨200, none, none⟩
        else ⟨402, some "L402 macaroon=\"mac\", invoice=\"inv\"",
          some ⟨some 5, none⟩⟩,
      ⟨some "L402 mac:pre2", some "pre2", some 5, "settled"⟩, 9⟩ "u"
    ⟨[("u", ⟨"m", "p", "L402 m:p", 0, none⟩)], ⟨0, 0, none, none⟩⟩
    ⟨"m", "p", "L402 m:p", 0, none⟩
    (by decide) (by decide) (by decide) (by decide)
    "L402 macaroon=\"mac\", invoice=\"inv\"" (by decide)
    ⟨"mac", "inv"⟩ (by decide) (by decide)
    ⟨0, 0, none, none⟩ (by decide) (by decide)
    "L402 mac:pre2" (by decide) (by decide) (by decide)

theorem strToList_append (s t : String) : (s ++ t).toList = s.toList ++ t.toList := by
  simp [String.toList, String.data_append]

theorem lastIdxOf_of_not_mem (c : Char) (l : List Char) (h : c ∉ l) :
    lastIdxOf c l = none := by
  induction l with
  | nil => rfl
  | cons x xs ih =>
    have hx : x ≠ c := by
      intro hh
      exact h (by simp [hh])
    have hxs : c ∉ xs := fun hm => h (List.mem_cons_of_mem _ hm)
    simp [lastIdxOf, ih hxs, hx]

theorem lastIdxOf_append_cons (c : Char) (m p : List Char) (hp : c ∉ p) :
    lastIdxOf c (m ++ c :: p) = some m.length := by
  induction m with
  | nil =>
    simp [lastIdxOf, lastIdxOf_of_not_mem c p hp]
  | cons x xs ih =>
    simp [lastIdxOf, ih]

theorem auth_roundtrip (m p : String) (hp : ':' ∉ p.toList) :
    parseAuthorization (formatAuthorization m p) = some ⟨m, p⟩ := by
  have hdata : (formatAuthorization m p).toList =
      "L402 ".toList ++ (m.toList ++ ':' :: p.toList) := by
    simp [formatAuthorization, strToList_append]
  have hpre : "L402 ".toList.isPrefixOf (formatAuthorization m p).toList = true := by
    rw [hdata, List.isPrefixOf_iff_prefix]
    exact List.prefix_append _ _
  have hdrop : (formatAuthorization m p).toList.drop 5 = m.toList ++ ':' :: p.toList := by
    rw [hdata]
    rfl
  unfold parseAuthorization
  rw [hpre]
  simp only [if_true]
  rw [hdrop, lastIdxOf_append_cons ':' m.toList p.toList hp]
  have htake : (m.toList ++ ':' :: p.toList).take m.toList.length = m.toList :=
    List.take_left _ _
  have hdrop2 : (m.toList ++ ':' :: p.toList).drop (m.toList.length + 1) = p.toList := by
    rw [show (m.toList ++ ':' :: p.toList) = (m.toList ++ [':']) ++ p.toList by simp,
      show m.toList.length + 1 = (m.toList ++ [':']).length by simp]
    exact List.drop_left _ _
  simp only [htake, hdrop2]
  rfl

theorem matchAttrAt_cons_ne (k : Char) (ks : List Char) (c : Char) (l : List Char)
    (h : c ≠ k) : matchAttrAt (k :: ks) (c :: l) = none := by
  have hk : (k == c) = false := beq_eq_false_iff_ne.mpr (Ne.symm h)
  have hpf : ((k :: ks).isPrefixOf (c :: l)) = false := by
    simp [List.isPrefixOf, hk]
  simp [matchAttrAt, hpf]

theorem scanAttr_cons_match (key : List Char) (c : Char) (l cap : List Char)
    (h : matchAttrAt key (c :: l) = some cap) : scanAttr key (c :: l) = some cap := by
  simp [scanAttr, h]

theorem scanAttr_cons_none (key : List Char) (c : Char) (l : List Char)
    (h : matchAttrAt key (c :: l) = none) : scanAttr key (c :: l) = scanAttr key l := by
  simp [scanAttr, h]

theorem scanAttr_cons_ne (k : Char) (ks : List Char) (c : Char) (l : List Char)
    (h : c ≠ k) : scanAttr (k :: ks) (c :: l) = scanAttr (k :: ks) l :=
  scanAttr_cons_none _ _ _ (matchAttrAt_cons_ne k ks c l h)

theorem takeWhile_append_quote (cap tail : List Char) (hq : '"' ∉ cap) :
    (cap ++ '"' :: tail).takeWhile (fun c => c != '"') = cap := by
  induction cap with
  | nil => simp
  | cons x xs ih =>
    have hx : x ≠ '"' := by
      intro h
      exact hq (by simp [h])
    have hxs : '"' ∉ xs := fun h => hq (List.mem_cons_of_mem _ h)
    simp [List.takeWhile_cons, hx, ih hxs]

theorem matchAttrAt_success (key cap tail : List Char) (hq : '"' ∉ cap)
    (hne : cap ≠ []) :
    matchAttrAt key (key ++ (cap ++ '"' :: tail)) = some cap := by
  have hpf : key.isPrefixOf (key ++ (cap ++ '"' :: tail)) = true := by
    rw [List.isPrefixOf_iff_prefix]
    exact List.prefix_append _ _
  have hdrop : (key ++ (cap ++ '"' :: tail)).drop key.length = cap ++ '"' :: tail :=
    List.drop_left _ _
  have htw : (cap ++ '"' :: tail).takeWhile (fun c => c != '"') = cap :=
    takeWhile_append_quote cap tail hq
  have hd2 : (cap ++ '"' :: tail).drop cap.length = '"' :: tail := List.drop_left _ _
  simp [matchAttrAt, hpf, hdrop, htw, hd2, hne]

theorem appendQuoteKeyEq (a : List Char) : ∀ (b rest : List Char), '"' ∉ a →
    '"' ∉ b → ((a ++ ['"']).isPrefixOf (b ++ '"' :: rest)) = true → a = b := by
  induction a with
  | nil =>
    intro b rest _ hb hpf
    cases b with
    | nil => rfl
    | cons y b' =>
      exfalso
      simp [List.isPrefixOf] at hpf
      exact hb (List.mem_cons.mpr (Or.inl hpf))
  | cons x a' ih =>
    intro b rest ha hb hpf
    cases b with
    | nil =>
      exfalso
      simp [List.isPrefixOf] at hpf
      exact ha (List.mem_cons.mpr (Or.inl hpf.1.symm))
    | cons y b' =>
      simp only [List.cons_append, List.isPrefixOf, Bool.and_eq_true, beq_iff_eq] at hpf
      obtain ⟨hxy, hrest⟩ := hpf
      have ha' : '"' ∉ a' := fun h => ha (List.mem_cons_of_mem _ h)
      have hb' : '"' ∉ b' := fun h => hb (List.mem_cons_of_mem _ h)
      rw [hxy, ih b' rest ha' hb' hrest]

theorem matchAttrAt_inv_none (mcur rest : List Char) (hq : '"' ∉ mcur)
    (hne : mcur ≠ "invoice=".toList) :
    matchAttrAt invoiceKey (mcur ++ '"' :: rest) = none := by
  cases hpf : (invoiceKey.isPrefixOf (mcur ++ '"' :: rest)) with
  | false => simp [matchAttrAt, hpf]
  | true =>
    exfalso
    apply hne
    have hq2 : '"' ∉ "invoice=".toList := by decide
    exact (appendQuoteKeyEq "invoice=".toList mcur rest hq2 hq hpf).symm

theorem scanAttr_inv_skip (c : Char) (l : List Char) (h : c ≠ 'i') :
    scanAttr invoiceKey (c :: l) = scanAttr invoiceKey l := by
  have hk : invoiceKey = 'i' :: "nvoice=\"".toList := rfl
  rw [hk, scanAttr_cons_ne _ _ _ _ h]

theorem scanAttr_mac_skip (c : Char) (l : List Char) (h : c ≠ 'm') :
    scanAttr macaroonKey (c :: l) = scanAttr macaroonKey l := by
  have hk : macaroonKey = 'm' :: "acaroon=\"".toList := rfl
  rw [hk, scanAttr_cons_ne _ _ _ _ h]

theorem scanAttr_inv_prefix15 (l : List Char) :
    scanAttr invoiceKey ("L402 macaroon=\"".toList ++ l) = scanAttr invoiceKey l := by
  show scanAttr invoiceKey ('L' :: '4' :: '0' :: '2' :: ' ' :: 'm' :: 'a' :: 'c' ::
    'a' :: 'r' :: 'o' :: 'o' :: 'n' :: '=' :: '"' :: l) = scanAttr invoiceKey l
  rw [scanAttr_inv_skip _ _ (by decide), scanAttr_inv_skip _ _ (by decide),
    scanAttr_inv_skip _ _ (by decide), scanAttr_inv_skip _ _ (by decide),
    scanAttr_inv_skip _ _ (by decide), scanAttr_inv_skip _ _ (by decide),
    scanAttr_inv_skip _ _ (by decide), scanAttr_inv_skip _ _ (by decide),
    scanAttr_inv_skip _ _ (by decide), scanAttr_inv_skip _ _ (by decide),
    scanAttr_inv_skip _ _ (by decide), scanAttr_inv_skip _ _ (by decide),
    scanAttr_inv_skip _ _ (by decide), scanAttr_inv_skip _ _ (by decide),
    scanAttr_inv_skip _ _ (by decide)]

theorem scanAttr_mac_prefix5 (l : List Char) :
    scanAttr macaroonKey ("L402 ".toList ++ l) = scanAttr macaroonKey l := by
  show scanAttr macaroonKey ('L' :: '4' :: '0' :: '2' :: ' ' :: l) =
    scanAttr macaroonKey l
  rw [scanAttr_mac_skip _ _ (by decide), scanAttr_mac_skip _ _ (by decide),
    scanAttr_mac_skip _ _ (by decide), scanAttr_mac_skip _ _ (by decide),
    scanAttr_mac_skip _ _ (by decide)]

theorem scanAttr_invoice (i : List Char) (hqi : '"' ∉ i) (hi : i ≠ []) :
    ∀ mcur : List Char, '"' ∉ mcur → ¬ ("invoice=".toList <:+ mcur) →
    scanAttr invoiceKey
      (mcur ++ '"' :: ',' :: ' ' :: (invoiceKey ++ (i ++ ['"']))) = some i := by
  intro mcur
  induction mcur with
  | nil =>
    intro _ _
    rw [List.nil_append]
    rw [scanAttr_inv_skip _ _ (by decide), scanAttr_inv_skip _ _ (by decide),
      scanAttr_inv_skip _ _ (by decide)]
    have hk : invoiceKey = 'i' :: "nvoice=\"".toList := rfl
    rw [hk, List.cons_append]
    apply scanAttr_cons_match
    rw [← List.cons_append, ← hk]
    have hshape : i ++ ['"'] = i ++ '"' :: ([] : List Char) := rfl
    rw [hshape]
    exact matchAttrAt_success invoiceKey i [] hqi hi
  | cons c m' ih =>
    intro hq hsuf
    have hq' : '"' ∉ m' := fun hh => hq (List.mem_cons_of_mem _ hh)
    have hsuf' : ¬ ("invoice=".toList <:+ m') := by
      intro hh
      exact hsuf (hh.trans (List.suffix_cons c m'))
    have hnoteq : (c :: m') ≠ "invoice=".toList := by
      intro hh
      apply hsuf
      rw [hh]
    have hmatch : matchAttrAt invoiceKey
        ((c :: m') ++ '"' :: (',' :: ' ' :: (invoiceKey ++ (i ++ ['"'])))) = none :=
      matchAttrAt_inv_none (c :: m') _ hq hnoteq
    rw [List.cons_append] at hmatch ⊢
    rw [scanAttr_cons_none _ _ _ hmatch]
    exact ih hq' hsuf'

theorem challenge_roundtrip (m i : String) (hm : m ≠ "") (hi : i ≠ "")
    (hqm : '"' ∉ m.toList) (hqi : '"' ∉ i.toList)
    (hsuf : ¬ ("invoice=".toList <:+ m.toList)) :
    parseChallenge (formatChallenge m i) = some ⟨m, i⟩ := by
  have hmn : m.toList ≠ [] := fun hh => hm (String.ext hh)
  have hin : i.toList ≠ [] := fun hh => hi (String.ext hh)
  have h1 : ("\", invoice=\"" : String).toList = '"' :: ',' :: ' ' :: invoiceKey := rfl
  have h2 : ("\"" : String).toList = ['"'] := rfl
  have hdata : (formatChallenge m i).toList =
      "L402 macaroon=\"".toList ++
        (m.toList ++ '"' :: ',' :: ' ' :: (invoiceKey ++ (i.toList ++ ['"']))) := by
    simp [formatChallenge, strToList_append, h1, h2, invoiceKey]
  have hpre : ("L402 ".toList.isPrefixOf (formatChallenge m i).toList) = true := by
    rw [hdata]
    rw [show "L402 macaroon=\"".toList = "L402 ".toList ++ "macaroon=\"".toList from rfl]
    rw [List.append_assoc, List.isPrefixOf_iff_prefix]
    exact List.prefix_append _ _
  have hmac : scanAttr macaroonKey (formatChallenge m i).toList = some m.toList := by
    rw [hdata]
    rw [show ("L402 macaroon=\"".toList ++
        (m.toList ++ '"' :: ',' :: ' ' :: (invoiceKey ++ (i.toList ++ ['"'])))) =
      "L402 ".toList ++ (macaroonKey ++
        (m.toList ++ '"' :: (',' :: ' ' :: (invoiceKey ++ (i.toList ++ ['"']))))) from rfl]
    rw [scanAttr_mac_prefix5]
    have hk : macaroonKey = 'm' :: "acaroon=\"".toList := rfl
    rw [hk, List.cons_append]
    apply scanAttr_cons_match
    rw [← List.cons_append, ← hk]
    exact matchAttrAt_success macaroonKey m.toList _ hqm hmn
  have hinv : scanAttr invoiceKey (formatChallenge m i).toList = some i.toList := by
    rw [hdata, scanAttr_inv_prefix15]
    exact scanAttr_invoice i.toList hqi hin m.toList hqm hsuf
  unfold parseChallenge
  rw [hpre]
  simp only [if_true]
  rw [hmac, hinv]
  rfl

/-- C7 (amended): `parseAuthorization (formatAuthorization m p) = {m, p}` for
all non-empty colon-free `m`, `p`; and
`parseChallenge (formatChallenge m i) = {m, i}` for all non-empty quote-free
`m`, `i` provided `m` does not end with the text `invoice=` (when it does,
the leftmost match of the invoice regex starts inside the macaroon
attribute and the round trip fails — see the counterexample). -/
theorem c7_codec_roundtrip :
    (∀ m p : String, m ≠ "" → p ≠ "" → ':' ∉ m.toList → ':' ∉ p.toList →
      parseAuthorization (formatAuthorization m p) = some ⟨m, p⟩) ∧
    (∀ m i : String, m ≠ "" → i ≠ "" → '"' ∉ m.toList → '"' ∉ i.toList →
      ¬ ("invoice=".toList <:+ m.toList) →
      parseChallenge (formatChallenge m i) = some ⟨m, i⟩) :=
  ⟨fun m p _ _ _ hp => auth_roundtrip m p hp,
    fun m i hm hi hqm hqi hsuf => challenge_roundtrip m i hm hi hqm hqi hsuf⟩

/-- C7 counterexample: `m = "invoice="` and `i = "ii"` are non-empty and
quote-free, yet the challenge round trip fails: the parse returns
`{ macaroon := "invoice=", invoice := ", invoice=" }`. -/
theorem c7_counterexample :
    ("invoice=" : String) ≠ "" ∧ ("ii" : String) ≠ "" ∧
    '"' ∉ ("invoice=" : String).toList ∧ '"' ∉ ("ii" : String).toList ∧
    parseChallenge (formatChallenge "invoice=" "ii") ≠
      some ⟨"invoice=", "ii"⟩ := by
  exact ⟨by decide, by decide, by decide, by decide, by decide⟩

/-- C7 witness: both round trips at ordinary inputs. -/
theorem c7_witness :
    parseAuthorization (formatAuthorization "mac" "pre") = some ⟨"mac", "pre"⟩ ∧
    parseChallenge (formatChallenge "mac" "lnbc10n1") = some ⟨"mac", "lnbc10n1"⟩ :=
  ⟨c7_codec_roundtrip.1 "mac" "pre" (by decide) (by decide) (by decide) (by decide),
    c7_codec_roundtrip.2 "mac" "lnbc10n1" (by decide) (by decide) (by decide)
      (by decide) (by decide)⟩
